import Mathlib

/-!
Shallow embedding of the CUMMW agent-based epidemic simulator
(`src/cummw.ipynb`).  The Python code mutates a shared population of
`StudentAgent` objects through aliased lists (the `students` list, the
apartments' occupant lists and the daily classroom groups all hold
references to the same objects).  The embedding therefore keeps the
population in a single `List StudentAgent` indexed by creation order and
lets every group be a list of indices into it; all mutation goes through
the population list.  The `random` module is a deterministic PRNG; it is
modelled as a stream of naturals (`Rng`) threaded explicitly through
every randomized operation, one stream element per primitive draw.
Probabilities (Python floats in [0,1]) are modelled as rationals.
-/

namespace Cummw

/-- The pseudo-random source: an infinite stream of naturals together
with a cursor.  `random.seed` fixes the stream; each primitive draw
consumes one element. -/
structure Rng where
  f : Nat → Nat
  i : Nat

def Rng.next (r : Rng) : Nat × Rng := (r.f r.i, ⟨r.f, r.i + 1⟩)

def denom : Nat := 2 ^ 32

/-- `random.uniform(0, 1)`: a rational in `[0,1)` derived from one draw. -/
def uniform01 (r : Rng) : ℚ × Rng :=
  let (k, r') := r.next
  (((k % denom : Nat) : ℚ) / (denom : ℚ), r')

/-- `bernoulli(prob)` from the notebook: `uniform(0, 1) < prob`. -/
def bernoulli (prob : ℚ) (r : Rng) : Bool × Rng :=
  let (u, r') := uniform01 r
  (decide (u < prob), r')

/-- Python `round`: nearest integer, ties to even. -/
def pyRound (x : ℚ) : ℤ :=
  let f := ⌊x⌋
  let r := x - (f : ℚ)
  if r < 1 / 2 then f
  else if 1 / 2 < r then f + 1
  else if f % 2 = 0 then f else f + 1

/-- `generate_infectious_time()`: `round(uniform(7, 10))`, i.e. rounding
`7 + 3u` with `u` uniform in `[0,1)`; the result lies in `{7, 8, 9, 10}`. -/
def generate_infectious_time (r : Rng) : Nat × Rng :=
  let (u, r') := uniform01 r
  ((pyRound (7 + 3 * u)).toNat, r')

/-- The disease states of the `State` enum. -/
inductive State where
  | HEALTHY
  | INFECTIOUS
  | IMMUNE
deriving DecidableEq, Repr

/-- A `StudentAgent`: disease state, the `_infected` pending flag, and the
`infectious_end` attribute (absent, i.e. `none`, until the agent first
turns infectious). -/
structure StudentAgent where
  state : State := .HEALTHY
  _infected : Bool := false
  infectious_end : Option Nat := none
deriving DecidableEq, Repr

instance : Inhabited StudentAgent := ⟨{}⟩

/-- `StudentAgent.infect`: set the pending `_infected` flag. -/
def infect (a : StudentAgent) : StudentAgent := { a with _infected := true }

/-- `StudentAgent.infectious`: whether the state is `INFECTIOUS`. -/
def infectious (a : StudentAgent) : Bool := a.state == State.INFECTIOUS

/-- `StudentAgent.have_been_sick`: whether the state differs from `HEALTHY`. -/
def have_been_sick (a : StudentAgent) : Bool := a.state != State.HEALTHY

/-- `StudentAgent.simulate_disease(day)`: the daily state-automaton step.
Randomness is consumed only on the `HEALTHY`-with-flag transition (the
`generate_infectious_time()` call). -/
def simulate_disease (day : Nat) (a : StudentAgent) (r : Rng) : StudentAgent × Rng :=
  match a.state with
  | .HEALTHY =>
      if a._infected then
        let (t, r') := generate_infectious_time r
        ({ a with state := .INFECTIOUS, infectious_end := some (day + t) }, r')
      else (a, r)
  | .INFECTIOUS =>
      if a.infectious_end = some day then ({ a with state := .IMMUNE }, r) else (a, r)
  | .IMMUNE => (a, r)

/-- An `Apartment`: its occupants (as population indices) and capacity. -/
structure Apartment where
  occupants : List Nat := []
  capacity : Nat
deriving DecidableEq, Repr

instance : Inhabited Apartment := ⟨{ capacity := 0 }⟩

/-- `Apartment.add_occupant`. -/
def add_occupant (apt : Apartment) (o : Nat) : Apartment :=
  { apt with occupants := apt.occupants ++ [o] }

/-- `Apartment.is_full`. -/
def is_full (apt : Apartment) : Bool := apt.occupants.length == apt.capacity

/-- The `Days` enum. -/
inductive Days where
  | MONDAY
  | TUESDAY
  | WEDNESDAY
  | THURSDAY
  | FRIDAY
  | SATURDAY
  | SUNDAY
deriving DecidableEq, Repr

/-- `for day in Days` iterates the enum members in declaration order. -/
def daysOfWeek : List Days :=
  [.MONDAY, .TUESDAY, .WEDNESDAY, .THURSDAY, .FRIDAY, .SATURDAY, .SUNDAY]

/-- In-place update of one list element (no-op when out of range); this
models mutating one aliased agent or apartment object. -/
def listModify (l : List α) (i : Nat) (g : α → α) : List α :=
  match l, i with
  | [], _ => []
  | x :: xs, 0 => g x :: xs
  | x :: xs, n + 1 => x :: listModify xs n g

/-- `random.choice(seq)`: uniform element of a nonempty sequence, one
draw; raises on an empty sequence (modelled by `none`). -/
def choice (l : List α) (r : Rng) : Option (α × Rng) :=
  match l with
  | [] => none
  | x :: xs =>
      let (k, r') := r.next
      some ((x :: xs).getD (k % (x :: xs).length) x, r')

/-- Fuel-indexed body of `shuffle`; the fuel is the list length, so the
recursion is structural and the definition evaluates in the kernel. -/
def shuffleAux : Nat → List α → Rng → List α × Rng
  | 0, _, r => ([], r)
  | _ + 1, [], r => ([], r)
  | fuel + 1, x :: xs, r =>
      let (k, r') := Rng.next r
      let n := k % (x :: xs).length
      let (tail, r'') := shuffleAux fuel ((x :: xs).eraseIdx n) r'
      ((x :: xs).getD n x :: tail, r'')

/-- `random.shuffle(seq)`: a uniform random permutation (stdlib; modelled
by repeatedly extracting a uniformly chosen remaining element). -/
def shuffle (l : List α) (r : Rng) : List α × Rng := shuffleAux l.length l r

/-- Python slice `l[start::step]` for `step ≥ 1`: the elements whose
position is `start`, `start + step`, `start + 2*step`, …. -/
def sliceStep (l : List α) (start step : Nat) : List α :=
  (l.enum.filter (fun p => start ≤ p.1 && (p.1 - start) % step == 0)).map Prod.snd

/-- The body of the inner pair loop of `randomly_infect`: if `a1` is
infectious (in the current population) and `a2` is not, flip a
`bernoulli prob` coin and, on success, call `infect` on `a2`. -/
def infect_step (prob : ℚ) (a1 : Nat) (acc : List StudentAgent × Rng) (a2 : Nat) :
    List StudentAgent × Rng :=
  if infectious (acc.1.getD a1 default) && !(infectious (acc.1.getD a2 default)) then
    let (b, r') := bernoulli prob acc.2
    (if b then listModify acc.1 a2 infect else acc.1, r')
  else acc

/-- `randomly_infect(group, prob)`: the nested `for agent1 in group: for
agent2 in group` loops over `infect_step`.  Infectiousness is read from
the current population state, which the call only changes through
`infect` (the `_infected` flag), never through `state`. -/
def randomly_infect (pop : List StudentAgent) (group : List Nat) (prob : ℚ) (r : Rng) :
    List StudentAgent × Rng :=
  group.foldl (fun acc a1 => group.foldl (infect_step prob a1) acc) (pop, r)

/-- Variant of `infect_step` that evaluates infectiousness against the
snapshot `pop0` instead of the current population. -/
def infect_step_entry (pop0 : List StudentAgent) (prob : ℚ) (a1 : Nat)
    (acc : List StudentAgent × Rng) (a2 : Nat) : List StudentAgent × Rng :=
  if infectious (pop0.getD a1 default) && !(infectious (pop0.getD a2 default)) then
    let (b, r') := bernoulli prob acc.2
    (if b then listModify acc.1 a2 infect else acc.1, r')
  else acc

/-- Snapshot variant of `randomly_infect` that evaluates infectiousness
against the population as it was at call entry; used to state that the
source function cannot chain infections within one call. -/
def randomly_infect_entry (pop : List StudentAgent) (group : List Nat) (prob : ℚ) (r : Rng) :
    List StudentAgent × Rng :=
  group.foldl (fun acc a1 => group.foldl (infect_step_entry pop prob a1) acc) (pop, r)

/-- `assign_to_classrooms(students, number_of_classrooms)`: shuffle the
`students` list in place, then return `[students[i::K] for i in
range(number_of_classrooms)]`.  The slice step is the module-level
constant `K` (passed here explicitly as `globalK`), not the function's
own parameter — the notebook's constant-capture.  Returns the groups and
the (mutated, i.e. shuffled) students list. -/
def assign_to_classrooms (globalK : Nat) (students : List Nat) (number_of_classrooms : Nat)
    (r : Rng) : List (List Nat) × List Nat × Rng :=
  let (students', r') := shuffle students r
  ((List.range number_of_classrooms).map (fun i => sliceStep students' i globalK), students', r')

/-- The ways `run_simulation` can raise before the day loop: the
`students[i]` access in the seeding loop with `i ≥ len(students)`, and
`random.choice` on an empty `apartments_with_space` list during housing
allocation (the capacity failure). -/
inductive SimError where
  | seedIndexError
  | capacityError
deriving DecidableEq, Repr

/-- `[StudentAgent() for _ in range(N)]`: `N` fresh healthy agents. -/
def initial_students (N : Nat) : List StudentAgent := List.replicate N default

/-- The seeding loop `for i in range(10): students[i].infect()`; raises
an index error when the population has fewer than 10 agents. -/
def seed_students (pop : List StudentAgent) : Except SimError (List StudentAgent) :=
  if pop.length < 10 then .error .seedIndexError
  else .ok ((List.range 10).foldl (fun p i => listModify p i infect) pop)

/-- `[Apartment(capacity=B) for _ in range(M)]`. -/
def emptyApartments (M B : Nat) : List Apartment :=
  List.replicate M { occupants := [], capacity := B }

/-- The housing-allocation loop: for each student in order, choose
uniformly among the apartments that are not full and append the student
to it; fails when no apartment has space left. -/
def allocate (apts : List Apartment) (toAdd : List Nat) (r : Rng) :
    Except SimError (List Apartment × Rng) :=
  match toAdd with
  | [] => .ok (apts, r)
  | s :: rest =>
      let avail := (List.range apts.length).filter (fun j => !(is_full (apts.getD j default)))
      match choice avail r with
      | none => .error .capacityError
      | some (j, r') => allocate (listModify apts j (fun apt => add_occupant apt s)) rest r'

/-- The mutable state carried across simulated days: the population, the
(reordered) `students` reference list, the apartments, the two metric
series, the day counter and the random source. -/
structure SimState where
  pop : List StudentAgent
  students : List Nat
  apartments : List Apartment
  infected_count : List Nat
  sick_count : List Nat
  day_number : Nat
  rng : Rng

/-- The body of the end-of-day `for agent in students:
agent.simulate_disease(day_number)` loop: advance the agent at index `i`. -/
def advance_step (dn : Nat) (acc : List StudentAgent × Rng) (i : Nat) :
    List StudentAgent × Rng :=
  let (a', r') := simulate_disease dn (acc.1.getD i default) acc.2
  (listModify acc.1 i (fun _ => a'), r')

/-- The weekday `for classroom in classrooms: randomly_infect(classroom, q)`
loop. -/
def classrooms_infect (q : ℚ) (cls : List (List Nat)) (acc : List StudentAgent × Rng) :
    List StudentAgent × Rng :=
  cls.foldl (fun acc c => randomly_infect acc.1 c q acc.2) acc

/-- The daily `for apartment in apartments:
randomly_infect(apartment.occupants, p)` loop. -/
def apartments_infect (p : ℚ) (apts : List Apartment) (acc : List StudentAgent × Rng) :
    List StudentAgent × Rng :=
  apts.foldl (fun acc apt => randomly_infect acc.1 apt.occupants p acc.2) acc

/-- One iteration of the inner `for day in Days` loop of
`run_simulation`: classroom assignment and classroom contagion on
weekdays, household contagion every day, then the two counts are
appended, the day counter incremented and every agent's disease state
advanced (in `students`-list order, as the source iterates it). -/
def simulate_day (globalK K : Nat) (p q : ℚ) (day : Days) (s : SimState) : SimState :=
  let s :=
    if day ∈ [Days.SATURDAY, Days.SUNDAY] then s
    else
      let (classrooms, students', r') := assign_to_classrooms globalK s.students K s.rng
      let (pop', r'') := classrooms_infect q classrooms (s.pop, r')
      { s with pop := pop', students := students', rng := r'' }
  let (pop2, r2) := apartments_infect p s.apartments (s.pop, s.rng)
  let infectedNow := s.students.countP (fun i => infectious (pop2.getD i default))
  let sickNow := s.students.countP (fun i => have_been_sick (pop2.getD i default))
  let dn := s.day_number + 1
  let (pop3, r3) := s.students.foldl (advance_step dn) (pop2, r2)
  { pop := pop3, students := s.students, apartments := s.apartments,
    infected_count := s.infected_count ++ [infectedNow],
    sick_count := s.sick_count ++ [sickNow],
    day_number := dn, rng := r3 }

/-- The fixed calendar of `run_simulation`: 12 weeks of 7 days each. -/
def allSimDays : List Days := (List.replicate 12 daysOfWeek).flatten

/-- `np.diff`: consecutive differences of a series. -/
def diff (l : List Nat) : List Int := (l.zip l.tail).map (fun p => (p.2 : Int) - (p.1 : Int))

/-- The tuple returned by `run_simulation`. -/
structure SimOutput where
  total_sick : Nat
  infected_count : List Nat
  infected_count_daily_change : List Int
  sick_count : List Nat
  sick_count_daily_change : List Int
deriving DecidableEq, Repr

/-- `run_simulation(N, M, B, K, p, q)`.  `globalK` is the module-level
constant `K` captured by `assign_to_classrooms`' slice step (the actual
notebook sets it to 100 and also passes it as this function's `K`
argument); `r` is the state of the shared random source at entry. -/
def run_simulation (N M B K : Nat) (p q : ℚ) (globalK : Nat) (r : Rng) :
    Except SimError SimOutput :=
  match seed_students (initial_students N) with
  | .error e => .error e
  | .ok pop₁ =>
      let (students₁, r₁) := shuffle (List.range N) r
      match allocate (emptyApartments M B) students₁ r₁ with
      | .error e => .error e
      | .ok (apts, r₂) =>
          let s₀ : SimState := ⟨pop₁, students₁, apts, [], [], 0, r₂⟩
          let sF := allSimDays.foldl (fun s d => simulate_day globalK K p q d s) s₀
          .ok { total_sick := sF.sick_count.getLastD 0,
                infected_count := sF.infected_count,
                infected_count_daily_change := diff sF.infected_count,
                sick_count := sF.sick_count,
                sick_count_daily_change := diff sF.sick_count }

deriving instance DecidableEq for Except

/-- Projection of a seeding result; the error case yields the empty
population. -/
def popOf (e : Except SimError (List StudentAgent)) : List StudentAgent :=
  match e with
  | .ok p => p
  | .error _ => []

/-- The cumulative-ever-sick series of a run; empty when the run failed. -/
def sickSeriesOf (e : Except SimError SimOutput) : List Nat :=
  match e with
  | .ok o => o.sick_count
  | .error _ => []

/-- The currently-infectious series of a run; empty when the run failed. -/
def infectedSeriesOf (e : Except SimError SimOutput) : List Nat :=
  match e with
  | .ok o => o.infected_count
  | .error _ => []

/-- The operations the outside world performs on one agent's disease
automaton: `infect` (the spec's `mark_exposed`) and `simulate_disease`
(the spec's `advance`). -/
inductive AgentOp where
  | mark_exposed
  | advance (day : Nat)
deriving DecidableEq, Repr

def applyOp (ar : StudentAgent × Rng) : AgentOp → StudentAgent × Rng
  | .mark_exposed => (infect ar.1, ar.2)
  | .advance d => simulate_disease d ar.1 ar.2

def applyOps (ar : StudentAgent × Rng) (ops : List AgentOp) : StudentAgent × Rng :=
  ops.foldl applyOp ar

/-- Position of a state along the Susceptible → Infectious → Immune
progression. -/
def stateRank : State → Nat
  | .HEALTHY => 0
  | .INFECTIOUS => 1
  | .IMMUNE => 2

/-- A concrete random stream used in concrete evaluations. -/
def rngC : Rng := ⟨fun _ => 0, 0⟩

/-- `PopRel p q` relates an earlier population `p` to a later one `q`
produced only by `infect` calls: every agent keeps its disease state,
and a raised `_infected` flag stays raised. -/
def PopRel (p q : List StudentAgent) : Prop :=
  q.map StudentAgent.state = p.map StudentAgent.state ∧
  ∀ i, (p.getD i default)._infected = true → (q.getD i default)._infected = true

/-- Total number of occupants across a list of apartments. -/
def sumOcc (apts : List Apartment) : Nat := (apts.map (fun a => a.occupants.length)).sum

/-- All occupants of a list of apartments, in apartment order. -/
def occList (apts : List Apartment) : List Nat := (apts.map Apartment.occupants).flatten

/-- The invariant the day loop maintains about a `SimState` for a
population of size `N`: sizes are stable, the `students` reference list
is a permutation of the population indices, the cumulative-sick series
is a non-decreasing chain whose last entry is at most the current sick
count, and the infectious series is pointwise at most the sick series. -/
def DayInv (N : Nat) (s : SimState) : Prop :=
  s.pop.length = N ∧
  s.students.Perm (List.range N) ∧
  List.Chain' (· ≤ ·) s.sick_count ∧
  s.sick_count.getLastD 0 ≤ s.pop.countP have_been_sick ∧
  List.Forall₂ (· ≤ ·) s.infected_count s.sick_count

/-! ### Basic lemmas about `listModify` -/

theorem length_listModify (l : List α) (i : Nat) (g : α → α) :
    (listModify l i g).length = l.length := by
  induction l generalizing i with
  | nil => rfl
  | cons x xs ih =>
      cases i with
      | zero => rfl
      | succ n => simpa [listModify] using ih n

theorem getD_listModify_self (l : List α) (i : Nat) (g : α → α) (d : α) (h : i < l.length) :
    (listModify l i g).getD i d = g (l.getD i d) := by
  induction l generalizing i with
  | nil => simp at h
  | cons x xs ih =>
      cases i with
      | zero => rfl
      | succ n =>
          have hn : n < xs.length := by simpa using h
          simpa [listModify] using ih n hn

theorem getD_listModify_ne (l : List α) (i j : Nat) (g : α → α) (d : α) (h : i ≠ j) :
    (listModify l j g).getD i d = l.getD i d := by
  induction l generalizing i j with
  | nil => rfl
  | cons x xs ih =>
      cases j with
      | zero =>
          cases i with
          | zero => exact absurd rfl h
          | succ n => rfl
      | succ m =>
          cases i with
          | zero => rfl
          | succ n =>
              have hnm : n ≠ m := fun hh => h (by simp [hh])
              simpa [listModify] using ih n m hnm

theorem map_listModify (l : List α) (i : Nat) (g : α → α) (f : α → β)
    (h : ∀ a, f (g a) = f a) : (listModify l i g).map f = l.map f := by
  induction l generalizing i with
  | nil => rfl
  | cons x xs ih =>
      cases i with
      | zero => simp [listModify, h]
      | succ n => simpa [listModify] using ih n

theorem listModify_of_le (l : List α) (i : Nat) (g : α → α) (h : l.length ≤ i) :
    listModify l i g = l := by
  induction l generalizing i with
  | nil => rfl
  | cons x xs ih =>
      cases i with
      | zero => simp at h
      | succ n =>
          have : xs.length ≤ n := by simpa using h
          simp [listModify, ih n this]

theorem countP_listModify_le (l : List α) (i : Nat) (g : α → α) (p : α → Bool)
    (h : ∀ hi : i < l.length, p (l.get ⟨i, hi⟩) = true → p (g (l.get ⟨i, hi⟩)) = true) :
    l.countP p ≤ (listModify l i g).countP p := by
  induction l generalizing i with
  | nil => simp [listModify]
  | cons x xs ih =>
      cases i with
      | zero =>
          simp only [listModify]
          rw [List.countP_cons, List.countP_cons]
          have : (if p x = true then 1 else 0) ≤ (if p (g x) = true then 1 else 0) := by
            by_cases hx : p x = true
            · have hgx : p (g x) = true := h (by simp) hx
              simp [hx, hgx]
            · simp [hx]
          omega
      | succ n =>
          have := ih n (fun hn hpx => h (by simpa using Nat.succ_lt_succ hn) hpx)
          simp only [listModify]
          rw [List.countP_cons, List.countP_cons]
          omega

/-! ### The shuffle is a permutation -/

theorem getD_cons_eraseIdx_perm (l : List α) (n : Nat) (d : α) (h : n < l.length) :
    (l.getD n d :: l.eraseIdx n).Perm l := by
  induction l generalizing n with
  | nil => simp at h
  | cons x xs ih =>
      cases n with
      | zero => simp
      | succ m =>
          have hm : m < xs.length := by simpa using h
          have step : (xs.getD m d :: x :: xs.eraseIdx m).Perm (x :: xs.getD m d :: xs.eraseIdx m) :=
            List.Perm.swap x (xs.getD m d) (xs.eraseIdx m)
          simpa using step.trans (List.Perm.cons x (ih m hm))

theorem shuffleAux_perm (fuel : Nat) (l : List α) (r : Rng) (h : l.length ≤ fuel) :
    (shuffleAux fuel l r).1.Perm l := by
  induction fuel generalizing l r with
  | zero =>
      have : l = [] := List.length_eq_zero.mp (Nat.le_zero.mp h)
      subst this
      simp [shuffleAux]
  | succ fuel ih =>
      cases l with
      | nil => simp [shuffleAux]
      | cons x xs =>
          simp only [shuffleAux]
          set n := (Rng.next r).1 % (x :: xs).length with hn
          have hlt : n < (x :: xs).length := Nat.mod_lt _ (by simp)
          have herase : ((x :: xs).eraseIdx n).length ≤ fuel := by
            have := List.length_eraseIdx_add_one (l := x :: xs) (i := n) hlt
            omega
          have tailPerm := ih ((x :: xs).eraseIdx n) (Rng.next r).2 herase
          exact (List.Perm.cons _ tailPerm).trans (getD_cons_eraseIdx_perm _ n x hlt)

theorem shuffle_perm (l : List α) (r : Rng) : (shuffle l r).1.Perm l :=
  shuffleAux_perm l.length l r (Nat.le_refl _)

theorem shuffle_length (l : List α) (r : Rng) : (shuffle l r).1.length = l.length :=
  (shuffle_perm l r).length_eq

/-! ### Per-agent facts about the disease automaton -/

theorem infect_state (a : StudentAgent) : (infect a).state = a.state := rfl

theorem infect_flag (a : StudentAgent) : (infect a)._infected = true := rfl

theorem infectious_eq (a : StudentAgent) : infectious a = true ↔ a.state = State.INFECTIOUS := by
  simp [infectious]

theorem infectious_imp_sick (a : StudentAgent) (h : infectious a = true) :
    have_been_sick a = true := by
  rcases a with ⟨s, f, e⟩
  cases s <;> simp_all [infectious, have_been_sick]

theorem sick_of_not_healthy (a : StudentAgent) (h : a.state ≠ State.HEALTHY) :
    have_been_sick a = true := by
  simpa [have_been_sick] using h

theorem simulate_disease_rank (d : Nat) (a : StudentAgent) (r : Rng) :
    stateRank a.state ≤ stateRank ((simulate_disease d a r).1.state)
    ∧ stateRank ((simulate_disease d a r).1.state) ≤ stateRank a.state + 1 := by
  rcases a with ⟨s, f, e⟩
  cases s <;> simp only [simulate_disease] <;> (try split) <;> simp [stateRank]

theorem simulate_disease_immune (d : Nat) (a : StudentAgent) (r : Rng)
    (h : a.state = State.IMMUNE) : simulate_disease d a r = (a, r) := by
  rcases a with ⟨s, f, e⟩
  cases s <;> simp_all [simulate_disease]

theorem simulate_disease_sick_mono (d : Nat) (a : StudentAgent) (r : Rng)
    (h : have_been_sick a = true) : have_been_sick ((simulate_disease d a r).1) = true := by
  rcases a with ⟨s, f, e⟩
  cases s <;> simp only [simulate_disease] <;> (try split) <;> simp_all [have_been_sick]

theorem simulate_disease_pending (d : Nat) (a : StudentAgent) (r : Rng)
    (hs : a.state = State.HEALTHY) (hf : a._infected = true) :
    ((simulate_disease d a r).1).state = State.INFECTIOUS := by
  rcases a with ⟨s, f, e⟩
  cases s <;> simp_all [simulate_disease]

/-! ### What contagion does to the population: states untouched,
pending flags only ever raised -/

protected theorem PopRel.refl (p : List StudentAgent) : PopRel p p := ⟨Eq.refl _, fun _ h => h⟩

theorem PopRel.comp {p q s : List StudentAgent} (h₁ : PopRel p q) (h₂ : PopRel q s) :
    PopRel p s := ⟨h₂.1.trans h₁.1, fun i h => h₂.2 i (h₁.2 i h)⟩

theorem PopRel.length_eq {p q : List StudentAgent} (h : PopRel p q) : q.length = p.length := by
  have := congrArg List.length h.1
  simpa using this

theorem state_getD_of_map_eq {p q : List StudentAgent}
    (h : q.map StudentAgent.state = p.map StudentAgent.state) (i : Nat) :
    (q.getD i default).state = (p.getD i default).state := by
  have hlen : q.length = p.length := by simpa using congrArg List.length h
  by_cases hi : i < p.length
  · have hq : q.getD i default = q.get ⟨i, by omega⟩ := List.getD_eq_get q default (by omega)
    have hp : p.getD i default = p.get ⟨i, hi⟩ := List.getD_eq_get p default hi
    rw [hq, hp]
    have := congrArg (fun l => l.get? i) h
    simp only [List.get?_map] at this
    rw [List.get?_eq_get (by omega), List.get?_eq_get hi] at this
    simpa using this
  · rw [List.getD_eq_default q default (by omega), List.getD_eq_default p default (by omega)]

theorem PopRel.listModify_infect (p : List StudentAgent) (j : Nat) :
    PopRel p (listModify p j infect) := by
  constructor
  · exact map_listModify p j infect StudentAgent.state (fun a => rfl)
  · intro i h
    by_cases hij : i = j
    · subst hij
      by_cases hi : i < p.length
      · rw [getD_listModify_self p i infect default hi]
        exact infect_flag _
      · rw [List.getD_eq_default p default (Nat.le_of_not_lt hi)] at h
        exact absurd h (by decide)
    · rw [getD_listModify_ne p i j infect default hij]
      exact h

theorem popRel_foldl {β : Type} (f : List StudentAgent × Rng → β → List StudentAgent × Rng)
    (hf : ∀ acc x, PopRel acc.1 (f acc x).1) (l : List β) (acc : List StudentAgent × Rng) :
    PopRel acc.1 (l.foldl f acc).1 := by
  induction l generalizing acc with
  | nil => exact PopRel.refl _
  | cons x xs ih => exact (hf acc x).comp (ih (f acc x))

theorem infect_step_popRel (prob : ℚ) (a1 : Nat) (acc : List StudentAgent × Rng) (a2 : Nat) :
    PopRel acc.1 (infect_step prob a1 acc a2).1 := by
  unfold infect_step
  split
  · simp only
    split
    · exact PopRel.listModify_infect _ _
    · exact PopRel.refl _
  · exact PopRel.refl _

theorem randomly_infect_popRel (pop : List StudentAgent) (group : List Nat) (prob : ℚ)
    (r : Rng) : PopRel pop (randomly_infect pop group prob r).1 := by
  unfold randomly_infect
  exact popRel_foldl _ (fun acc a1 => popRel_foldl _ (infect_step_popRel prob a1) group acc)
    group (pop, r)

theorem randomly_infect_mapState (pop : List StudentAgent) (group : List Nat) (prob : ℚ)
    (r : Rng) :
    (randomly_infect pop group prob r).1.map StudentAgent.state = pop.map StudentAgent.state :=
  (randomly_infect_popRel pop group prob r).1

/-! ### `randomly_infect` agrees with its entry-snapshot variant -/

theorem infectious_getD_of_map_eq {p q : List StudentAgent}
    (h : q.map StudentAgent.state = p.map StudentAgent.state) (i : Nat) :
    infectious (q.getD i default) = infectious (p.getD i default) := by
  unfold infectious
  rw [state_getD_of_map_eq h i]

theorem inner_fold_entry_eq (pop : List StudentAgent) (prob : ℚ) (a1 : Nat)
    (g2 : List Nat) (acc : List StudentAgent × Rng)
    (hacc : acc.1.map StudentAgent.state = pop.map StudentAgent.state) :
    g2.foldl (infect_step prob a1) acc = g2.foldl (infect_step_entry pop prob a1) acc ∧
    (g2.foldl (infect_step prob a1) acc).1.map StudentAgent.state = pop.map StudentAgent.state := by
  induction g2 generalizing acc with
  | nil => exact ⟨rfl, hacc⟩
  | cons a2 rest ih =>
      have hstep : infect_step prob a1 acc a2 = infect_step_entry pop prob a1 acc a2 := by
        unfold infect_step infect_step_entry
        rw [infectious_getD_of_map_eq hacc a1, infectious_getD_of_map_eq hacc a2]
      have hrel : (infect_step prob a1 acc a2).1.map StudentAgent.state =
          pop.map StudentAgent.state :=
        ((infect_step_popRel prob a1 acc a2).1).trans hacc
      have := ih (infect_step prob a1 acc a2) hrel
      simp only [List.foldl_cons]
      rw [← hstep]
      exact this

theorem randomly_infect_eq_entry (pop : List StudentAgent) (group : List Nat) (prob : ℚ)
    (r : Rng) : randomly_infect pop group prob r = randomly_infect_entry pop group prob r := by
  unfold randomly_infect randomly_infect_entry
  suffices h : ∀ (g1 : List Nat) (acc : List StudentAgent × Rng),
      acc.1.map StudentAgent.state = pop.map StudentAgent.state →
      g1.foldl (fun acc a1 => group.foldl (infect_step prob a1) acc) acc =
        g1.foldl (fun acc a1 => group.foldl (infect_step_entry pop prob a1) acc) acc by
    exact h group (pop, r) rfl
  intro g1
  induction g1 with
  | nil => intro acc _; rfl
  | cons a1 rest ih =>
      intro acc hacc
      have hinner := inner_fold_entry_eq pop prob a1 group acc hacc
      simp only [List.foldl_cons]
      rw [← hinner.1]
      exact ih _ hinner.2

/-! ### The end-of-day advance loop -/

theorem advance_fold_length (dn : Nat) (lst : List Nat) (acc : List StudentAgent × Rng) :
    (lst.foldl (advance_step dn) acc).1.length = acc.1.length := by
  induction lst generalizing acc with
  | nil => rfl
  | cons j rest ih =>
      simp only [List.foldl_cons]
      rw [ih]
      simp [advance_step, length_listModify]

theorem advance_fold_getD_not_mem (dn : Nat) (lst : List Nat) (acc : List StudentAgent × Rng)
    (i : Nat) (d : StudentAgent) (h : i ∉ lst) :
    (lst.foldl (advance_step dn) acc).1.getD i d = acc.1.getD i d := by
  induction lst generalizing acc with
  | nil => rfl
  | cons j rest ih =>
      simp only [List.foldl_cons]
      have hji : i ≠ j := fun hh => h (hh ▸ List.mem_cons_self j rest)
      rw [ih _ (fun hh => h (List.mem_cons_of_mem j hh))]
      simp only [advance_step]
      exact getD_listModify_ne _ i j _ d hji

theorem advance_fold_getD_mem (dn : Nat) (lst : List Nat) (acc : List StudentAgent × Rng)
    (i : Nat) (d : StudentAgent) (hmem : i ∈ lst) (hnd : lst.Nodup) (hlen : i < acc.1.length) :
    ∃ r', (lst.foldl (advance_step dn) acc).1.getD i d =
      (simulate_disease dn (acc.1.getD i d) r').1 := by
  induction lst generalizing acc with
  | nil => simp at hmem
  | cons j rest ih =>
      simp only [List.foldl_cons]
      by_cases hij : i = j
      · subst hij
        have hrest : i ∉ rest := by
          have := hnd
          simp only [List.nodup_cons] at this
          exact this.1
        rw [advance_fold_getD_not_mem dn rest _ i d hrest]
        refine ⟨acc.2, ?_⟩
        simp only [advance_step]
        rw [getD_listModify_self _ i _ d hlen]
        have hdd : acc.1.getD i default = acc.1.getD i d := by
          rw [List.getD_eq_get _ _ hlen, List.getD_eq_get _ _ hlen]
        rw [hdd]
      · have hmem' : i ∈ rest := by
          rcases List.mem_cons.mp hmem with h1 | h2
          · exact absurd h1 hij
          · exact h2
        have hnd' : rest.Nodup := (List.nodup_cons.mp hnd).2
        have hlen' : i < (advance_step dn acc j).1.length := by
          simp only [advance_step]
          rw [length_listModify]
          exact hlen
        obtain ⟨r', hr'⟩ := ih (advance_step dn acc j) hmem' hnd' hlen'
        refine ⟨r', ?_⟩
        rw [hr']
        simp only [advance_step]
        rw [getD_listModify_ne _ i j _ d hij]

theorem advance_fold_countP_le (dn : Nat) (lst : List Nat) (acc : List StudentAgent × Rng)
    (p : StudentAgent → Bool) (hp : ∀ a r, p a = true → p ((simulate_disease dn a r).1) = true) :
    acc.1.countP p ≤ (lst.foldl (advance_step dn) acc).1.countP p := by
  induction lst generalizing acc with
  | nil => exact Nat.le_refl _
  | cons j rest ih =>
      simp only [List.foldl_cons]
      refine Nat.le_trans ?_ (ih (advance_step dn acc j))
      simp only [advance_step]
      refine countP_listModify_le acc.1 j _ p ?_
      intro hj hpj
      have hgd : acc.1.getD j default = acc.1.get ⟨j, hj⟩ := List.getD_eq_get _ _ hj
      rw [hgd]
      exact hp _ _ hpj

/-! ### The seeding loop -/

theorem seed_fold_length (n : Nat) (pop : List StudentAgent) :
    ((List.range n).foldl (fun p j => listModify p j infect) pop).length = pop.length := by
  induction n generalizing pop with
  | zero => rfl
  | succ m ih =>
      rw [List.range_succ, List.foldl_append]
      simp only [List.foldl_cons, List.foldl_nil]
      rw [length_listModify, ih]

theorem seed_fold_getD_ge (n : Nat) (pop : List StudentAgent) (i : Nat) (d : StudentAgent)
    (h : n ≤ i) :
    ((List.range n).foldl (fun p j => listModify p j infect) pop).getD i d = pop.getD i d := by
  induction n generalizing pop with
  | zero => rfl
  | succ m ih =>
      rw [List.range_succ, List.foldl_append]
      simp only [List.foldl_cons, List.foldl_nil]
      rw [getD_listModify_ne _ i m infect d (by omega), ih pop (by omega)]

theorem seed_fold_getD_lt (n : Nat) (pop : List StudentAgent) (i : Nat) (d : StudentAgent)
    (h : i < n) (hlen : i < pop.length) :
    ((List.range n).foldl (fun p j => listModify p j infect) pop).getD i d =
      infect (pop.getD i d) := by
  induction n generalizing pop with
  | zero => omega
  | succ m ih =>
      rw [List.range_succ, List.foldl_append]
      simp only [List.foldl_cons, List.foldl_nil]
      by_cases him : i = m
      · subst him
        rw [getD_listModify_self _ i infect d (by rw [seed_fold_length]; exact hlen)]
        rw [seed_fold_getD_ge i pop i d (Nat.le_refl i)]
      · have : i < m := by omega
        rw [getD_listModify_ne _ i m infect d him, ih pop this hlen]

theorem seed_students_ok (pop : List StudentAgent) (h : 10 ≤ pop.length) :
    seed_students pop =
      .ok ((List.range 10).foldl (fun p j => listModify p j infect) pop) := by
  simp [seed_students, Nat.not_lt.mpr h]

theorem seed_students_err (pop : List StudentAgent) (h : pop.length < 10) :
    seed_students pop = .error .seedIndexError := by
  simp [seed_students, h]

theorem initial_students_length (N : Nat) : (initial_students N).length = N := by
  simp [initial_students]

theorem initial_students_getD (N i : Nat) (d : StudentAgent) (h : i < N) :
    (initial_students N).getD i d = default := by
  unfold initial_students
  rw [List.getD_eq_get _ _ (by simpa using h)]
  exact List.get_replicate _ _

theorem seededPop_length (N : Nat) (h : 10 ≤ N) :
    (popOf (seed_students (initial_students N))).length = N := by
  rw [seed_students_ok _ (by simpa [initial_students_length] using h)]
  simp only [popOf]
  rw [seed_fold_length, initial_students_length]

theorem seededPop_getD_lt (N i : Nat) (h : 10 ≤ N) (hi : i < 10) :
    (popOf (seed_students (initial_students N))).getD i default = infect default := by
  rw [seed_students_ok _ (by simpa [initial_students_length] using h)]
  simp only [popOf]
  rw [seed_fold_getD_lt 10 _ i default hi (by rw [initial_students_length]; omega)]
  rw [initial_students_getD N i default (by omega)]

theorem seededPop_getD_ge (N i : Nat) (h : 10 ≤ N) (hi : 10 ≤ i) (hN : i < N) :
    (popOf (seed_students (initial_students N))).getD i default = default := by
  rw [seed_students_ok _ (by simpa [initial_students_length] using h)]
  simp only [popOf]
  rw [seed_fold_getD_ge 10 _ i default hi]
  exact initial_students_getD N i default hN

theorem seededPop_state (N i : Nat) (h : 10 ≤ N) (hN : i < N) :
    ((popOf (seed_students (initial_students N))).getD i default).state = State.HEALTHY := by
  by_cases hi : i < 10
  · rw [seededPop_getD_lt N i h hi]; rfl
  · rw [seededPop_getD_ge N i h (by omega) hN]; rfl

/-! ### Counting over the `students` reference list versus the population -/

theorem map_getD_range (l : List α) (d : α) :
    (List.range l.length).map (fun i => l.getD i d) = l := by
  apply List.ext_get
  · simp
  · intro n h1 h2
    simp only [List.get_map, List.get_range]
    exact List.getD_eq_get _ _ h2

theorem countP_range_getD (l : List α) (d : α) (pb : α → Bool) :
    (List.range l.length).countP (fun i => pb (l.getD i d)) = l.countP pb := by
  have := congrArg (List.countP pb) (map_getD_range l d)
  rw [List.countP_map] at this
  exact this

theorem countP_students (pop : List StudentAgent) (students : List Nat)
    (hs : students.Perm (List.range pop.length)) (pb : StudentAgent → Bool) :
    students.countP (fun i => pb (pop.getD i default)) = pop.countP pb := by
  rw [hs.countP_eq]
  exact countP_range_getD pop default pb

theorem countP_eq_of_mapState {p q : List StudentAgent}
    (h : q.map StudentAgent.state = p.map StudentAgent.state) (pbs : State → Bool) :
    q.countP (fun a => pbs a.state) = p.countP (fun a => pbs a.state) := by
  have hq : q.countP (fun a => pbs a.state) = (q.map StudentAgent.state).countP pbs := by
    rw [List.countP_map]; rfl
  have hp : p.countP (fun a => pbs a.state) = (p.map StudentAgent.state).countP pbs := by
    rw [List.countP_map]; rfl
  rw [hq, hp, h]

theorem countP_infectious_eq_of_mapState {p q : List StudentAgent}
    (h : q.map StudentAgent.state = p.map StudentAgent.state) :
    q.countP infectious = p.countP infectious :=
  countP_eq_of_mapState h (fun s => s == State.INFECTIOUS)

theorem countP_sick_eq_of_mapState {p q : List StudentAgent}
    (h : q.map StudentAgent.state = p.map StudentAgent.state) :
    q.countP have_been_sick = p.countP have_been_sick :=
  countP_eq_of_mapState h (fun s => s != State.HEALTHY)

/-! ### Housing allocation: success, failure, and the invariant -/

theorem choice_some_of_ne_nil (l : List α) (r : Rng) (h : l ≠ []) :
    ∃ a r', choice l r = some (a, r') ∧ a ∈ l := by
  cases l with
  | nil => exact absurd rfl h
  | cons x xs =>
      refine ⟨(x :: xs).getD ((Rng.next r).1 % (x :: xs).length) x, (Rng.next r).2, rfl, ?_⟩
      have hlt : (Rng.next r).1 % (x :: xs).length < (x :: xs).length :=
        Nat.mod_lt _ (by simp)
      rw [List.getD_eq_get _ _ hlt]
      exact List.get_mem _ _ _

theorem mem_listModify (l : List α) (j : Nat) (g : α → α) (a : α)
    (h : a ∈ listModify l j g) : a ∈ l ∨ ∃ hj : j < l.length, a = g (l.get ⟨j, hj⟩) := by
  induction l generalizing j with
  | nil => exact absurd h (by simp [listModify])
  | cons x xs ih =>
      cases j with
      | zero =>
          rcases List.mem_cons.mp h with h1 | h2
          · exact Or.inr ⟨by simp, h1⟩
          · exact Or.inl (List.mem_cons_of_mem x h2)
      | succ n =>
          rcases List.mem_cons.mp h with h1 | h2
          · exact Or.inl (h1 ▸ List.mem_cons_self x xs)
          · rcases ih n h2 with h3 | ⟨hj, he⟩
            · exact Or.inl (List.mem_cons_of_mem x h3)
            · exact Or.inr ⟨by simpa using Nat.succ_lt_succ hj, by simpa using he⟩

theorem sumOcc_eq_length_occList (apts : List Apartment) :
    sumOcc apts = (occList apts).length := by
  simp only [sumOcc, occList, List.length_flatten, List.map_map]
  rfl

theorem sumOcc_le (B : Nat) (apts : List Apartment)
    (h : ∀ a ∈ apts, a.occupants.length ≤ B) : sumOcc apts ≤ apts.length * B := by
  induction apts with
  | nil => simp [sumOcc]
  | cons a rest ih =>
      have ha := h a (List.mem_cons_self a rest)
      have hr := ih (fun b hb => h b (List.mem_cons_of_mem a hb))
      simp only [sumOcc, List.map_cons, List.sum_cons, List.length_cons] at *
      have : (rest.length + 1) * B = rest.length * B + B := by ring
      omega

theorem occList_cons (a : Apartment) (rest : List Apartment) :
    occList (a :: rest) = a.occupants ++ occList rest := by
  simp [occList]

theorem occList_listModify_add (apts : List Apartment) (j s : Nat) (h : j < apts.length) :
    (occList (listModify apts j (fun apt => add_occupant apt s))).Perm (occList apts ++ [s]) := by
  induction apts generalizing j with
  | nil => simp at h
  | cons a rest ih =>
      cases j with
      | zero =>
          simp only [listModify, occList_cons, add_occupant]
          rw [List.append_assoc, List.append_assoc]
          exact List.Perm.append_left a.occupants List.perm_append_comm
      | succ n =>
          have hn : n < rest.length := by simpa using h
          simp only [listModify, occList_cons]
          refine List.Perm.trans (List.Perm.append_left a.occupants (ih n hn)) ?_
          rw [List.append_assoc]

theorem alloc_inv_step (B : Nat) (apts : List Apartment) (j s : Nat)
    (hcap : ∀ a ∈ apts, a.capacity = B ∧ a.occupants.length ≤ B)
    (hj : j < apts.length) (hfull : is_full (apts.getD j default) = false) :
    ∀ a ∈ listModify apts j (fun apt => add_occupant apt s),
      a.capacity = B ∧ a.occupants.length ≤ B := by
  intro a ha
  rcases mem_listModify apts j _ a ha with h1 | ⟨hj', he⟩
  · exact hcap a h1
  · have hget : apts.get ⟨j, hj'⟩ ∈ apts := List.get_mem _ _ _
    have hcap' := hcap _ hget
    have hne : (apts.get ⟨j, hj'⟩).occupants.length ≠ (apts.get ⟨j, hj'⟩).capacity := by
      rw [List.getD_eq_get _ _ hj] at hfull
      simpa [is_full] using hfull
    subst he
    constructor
    · simpa [add_occupant] using hcap'.1
    · simp only [add_occupant, List.length_append, List.length_cons, List.length_nil]
      omega

theorem sumOcc_listModify_add (apts : List Apartment) (j s : Nat) (h : j < apts.length) :
    sumOcc (listModify apts j (fun apt => add_occupant apt s)) = sumOcc apts + 1 := by
  rw [sumOcc_eq_length_occList, sumOcc_eq_length_occList]
  rw [(occList_listModify_add apts j s h).length_eq]
  simp

theorem avail_ne_nil (B : Nat) (apts : List Apartment)
    (hcap : ∀ a ∈ apts, a.capacity = B ∧ a.occupants.length ≤ B)
    (h : sumOcc apts < apts.length * B) :
    (List.range apts.length).filter (fun j => !(is_full (apts.getD j default))) ≠ [] := by
  intro hnil
  have hall : ∀ j ∈ List.range apts.length, ¬(!(is_full (apts.getD j default)) = true) :=
    fun j hj => by
      have := List.filter_eq_nil.mp hnil j hj
      simpa using this
  have hfull : ∀ a ∈ apts, a.occupants.length = B := by
    intro a ha
    obtain ⟨i, hia⟩ := List.mem_iff_get.mp ha
    have hi : (i : Nat) ∈ List.range apts.length := List.mem_range.mpr i.isLt
    have := hall _ hi
    rw [List.getD_eq_get _ _ i.isLt, hia] at this
    have hfu : is_full a = true := by
      by_cases hb : is_full a = true
      · exact hb
      · simp [hb] at this
    have := (hcap a ha).1
    simpa [is_full, this] using hfu
  have : sumOcc apts = apts.length * B := by
    unfold sumOcc
    rw [List.map_congr_left (fun a ha => hfull a ha)]
    simp [List.map_const, mul_comm]
  omega

theorem allocate_nil (apts : List Apartment) (r : Rng) :
    allocate apts [] r = .ok (apts, r) := rfl

theorem allocate_ok (B : Nat) (l : List Nat) :
    ∀ (apts : List Apartment) (r : Rng),
    (∀ a ∈ apts, a.capacity = B ∧ a.occupants.length ≤ B) →
    l.length + sumOcc apts ≤ apts.length * B →
    ∃ apts' r', allocate apts l r = .ok (apts', r') ∧
      (occList apts').Perm (occList apts ++ l) ∧
      (∀ a ∈ apts', a.capacity = B ∧ a.occupants.length ≤ B) ∧
      apts'.length = apts.length := by
  induction l with
  | nil =>
      intro apts r hcap _
      exact ⟨apts, r, rfl, by simp, hcap, rfl⟩
  | cons s rest ih =>
      intro apts r hcap hle
      have hlt : sumOcc apts < apts.length * B := by
        simp only [List.length_cons] at hle
        omega
      obtain ⟨j, r', hchoice, hjmem⟩ :=
        choice_some_of_ne_nil _ r (avail_ne_nil B apts hcap hlt)
      have hj : j < apts.length := by
        have := (List.mem_filter.mp hjmem).1
        simpa using this
      have hfull : is_full (apts.getD j default) = false := by
        have := (List.mem_filter.mp hjmem).2
        simpa using this
      set apts₂ := listModify apts j (fun apt => add_occupant apt s) with hapts₂
      have hcap₂ := alloc_inv_step B apts j s hcap hj hfull
      have hlen₂ : apts₂.length = apts.length := length_listModify _ _ _
      have hsum₂ : sumOcc apts₂ = sumOcc apts + 1 := sumOcc_listModify_add apts j s hj
      have hle₂ : rest.length + sumOcc apts₂ ≤ apts₂.length * B := by
        rw [hsum₂, hlen₂]
        simp only [List.length_cons] at hle
        omega
      obtain ⟨apts', r'', hok, hperm, hcap', hlen'⟩ := ih apts₂ r' hcap₂ hle₂
      refine ⟨apts', r'', ?_, ?_, hcap', by rw [hlen', hlen₂]⟩
      · simp only [allocate]
        rw [hchoice]
        exact hok
      · refine hperm.trans ?_
        refine (List.Perm.append_right rest (occList_listModify_add apts j s hj)).trans ?_
        rw [List.append_assoc]
        exact List.Perm.refl _

theorem allocate_err (B : Nat) (l : List Nat) :
    ∀ (apts : List Apartment) (r : Rng),
    (∀ a ∈ apts, a.capacity = B ∧ a.occupants.length ≤ B) →
    apts.length * B < l.length + sumOcc apts →
    allocate apts l r = .error .capacityError := by
  induction l with
  | nil =>
      intro apts r hcap hlt
      have := sumOcc_le B apts (fun a ha => (hcap a ha).2)
      simp only [List.length_nil, Nat.zero_add] at hlt
      omega
  | cons s rest ih =>
      intro apts r hcap hlt
      by_cases hnil :
          (List.range apts.length).filter (fun j => !(is_full (apts.getD j default))) = []
      · simp only [allocate]
        rw [hnil]
        rfl
      · obtain ⟨j, r', hchoice, hjmem⟩ := choice_some_of_ne_nil _ r hnil
        have hj : j < apts.length := by
          have := (List.mem_filter.mp hjmem).1
          simpa using this
        have hfull : is_full (apts.getD j default) = false := by
          have := (List.mem_filter.mp hjmem).2
          simpa using this
        set apts₂ := listModify apts j (fun apt => add_occupant apt s) with hapts₂
        have hcap₂ := alloc_inv_step B apts j s hcap hj hfull
        have hlen₂ : apts₂.length = apts.length := length_listModify _ _ _
        have hsum₂ : sumOcc apts₂ = sumOcc apts + 1 := sumOcc_listModify_add apts j s hj
        have hlt₂ : apts₂.length * B < rest.length + sumOcc apts₂ := by
          rw [hsum₂, hlen₂]
          simp only [List.length_cons] at hlt
          omega
        simp only [allocate]
        rw [hchoice]
        exact ih apts₂ r' hcap₂ hlt₂

theorem emptyApartments_inv (M B : Nat) :
    ∀ a ∈ emptyApartments M B, a.capacity = B ∧ a.occupants.length ≤ B := by
  intro a ha
  have := List.eq_of_mem_replicate ha
  subst this
  exact ⟨rfl, by simp⟩

theorem emptyApartments_length (M B : Nat) : (emptyApartments M B).length = M := by
  simp [emptyApartments]

theorem flatten_replicate_nil (M : Nat) : (List.replicate M ([] : List α)).flatten = [] := by
  induction M with
  | zero => rfl
  | succ m ih => simp [List.replicate_succ, ih]

theorem occList_emptyApartments (M B : Nat) : occList (emptyApartments M B) = [] := by
  simp only [occList, emptyApartments, List.map_replicate]
  exact flatten_replicate_nil M

theorem sumOcc_emptyApartments (M B : Nat) : sumOcc (emptyApartments M B) = 0 := by
  rw [sumOcc_eq_length_occList, occList_emptyApartments]
  rfl

/-! ### The structure of one simulated day -/

theorem classrooms_infect_popRel (q : ℚ) (cls : List (List Nat))
    (acc : List StudentAgent × Rng) : PopRel acc.1 (classrooms_infect q cls acc).1 := by
  unfold classrooms_infect
  exact popRel_foldl (fun acc c => randomly_infect acc.1 c q acc.2)
    (fun acc c => randomly_infect_popRel acc.1 c q acc.2) cls acc

theorem apartments_infect_popRel (p : ℚ) (apts : List Apartment)
    (acc : List StudentAgent × Rng) : PopRel acc.1 (apartments_infect p apts acc).1 := by
  unfold apartments_infect
  exact popRel_foldl (fun acc apt => randomly_infect acc.1 apt.occupants p acc.2)
    (fun acc apt => randomly_infect_popRel acc.1 apt.occupants p acc.2) apts acc

theorem simulate_day_spec (gk K : Nat) (p q : ℚ) (day : Days) (s : SimState) :
    ∃ (pop₁ : List StudentAgent) (r₁ : Rng) (students₁ : List Nat),
      PopRel s.pop pop₁ ∧ students₁.Perm s.students ∧
      simulate_day gk K p q day s =
        { pop := (students₁.foldl (advance_step (s.day_number + 1))
                    (apartments_infect p s.apartments (pop₁, r₁))).1,
          students := students₁,
          apartments := s.apartments,
          infected_count := s.infected_count ++
            [students₁.countP (fun i =>
              infectious ((apartments_infect p s.apartments (pop₁, r₁)).1.getD i default))],
          sick_count := s.sick_count ++
            [students₁.countP (fun i =>
              have_been_sick ((apartments_infect p s.apartments (pop₁, r₁)).1.getD i default))],
          day_number := s.day_number + 1,
          rng := (students₁.foldl (advance_step (s.day_number + 1))
                    (apartments_infect p s.apartments (pop₁, r₁))).2 } := by
  by_cases hday : day ∈ [Days.SATURDAY, Days.SUNDAY]
  · refine ⟨s.pop, s.rng, s.students, PopRel.refl _, List.Perm.refl _, ?_⟩
    simp only [simulate_day, if_pos hday]
  · refine ⟨(classrooms_infect q (assign_to_classrooms gk s.students K s.rng).1
        (s.pop, (assign_to_classrooms gk s.students K s.rng).2.2)).1,
      (classrooms_infect q (assign_to_classrooms gk s.students K s.rng).1
        (s.pop, (assign_to_classrooms gk s.students K s.rng).2.2)).2,
      (assign_to_classrooms gk s.students K s.rng).2.1,
      classrooms_infect_popRel _ _ _, ?_, ?_⟩
    · exact shuffle_perm s.students s.rng
    · simp only [simulate_day, if_neg hday]

theorem forall2_concat {R : α → β → Prop} {l₁ : List α} {l₂ : List β} {a : α} {b : β}
    (h : List.Forall₂ R l₁ l₂) (hr : R a b) : List.Forall₂ R (l₁ ++ [a]) (l₂ ++ [b]) := by
  induction h with
  | nil => exact List.Forall₂.cons hr List.Forall₂.nil
  | cons hx _ ih => exact List.Forall₂.cons hx ih

theorem simulate_day_DayInv (N gk K : Nat) (p q : ℚ) (day : Days) (s : SimState)
    (h : DayInv N s) : DayInv N (simulate_day gk K p q day s) := by
  obtain ⟨hlen, hstud, hchain, hlast, hf2⟩ := h
  obtain ⟨pop₁, r₁, students₁, hrel₁, hperm₁, heq⟩ := simulate_day_spec gk K p q day s
  set pop2 := (apartments_infect p s.apartments (pop₁, r₁)).1 with hpop2def
  have hrel2 : PopRel s.pop pop2 := hrel₁.comp (apartments_infect_popRel p s.apartments _)
  have hlen2 : pop2.length = N := by rw [hrel2.length_eq, hlen]
  have hstud₁ : students₁.Perm (List.range N) := hperm₁.trans hstud
  have hsick2 : pop2.countP have_been_sick = s.pop.countP have_been_sick :=
    countP_sick_eq_of_mapState hrel2.1
  have hsickNow :
      students₁.countP (fun i => have_been_sick (pop2.getD i default)) =
        pop2.countP have_been_sick := by
    refine countP_students pop2 students₁ ?_ have_been_sick
    rw [hlen2]
    exact hstud₁
  have hinfNow :
      students₁.countP (fun i => infectious (pop2.getD i default)) =
        pop2.countP infectious := by
    refine countP_students pop2 students₁ ?_ infectious
    rw [hlen2]
    exact hstud₁
  have hinf_le : pop2.countP infectious ≤ pop2.countP have_been_sick :=
    List.countP_mono_left (fun a _ ha => infectious_imp_sick a ha)
  rw [heq]
  refine ⟨?_, ?_, ?_, ?_, ?_⟩
  · simp only
    rw [advance_fold_length]
    exact hlen2
  · exact hstud₁
  · simp only
    rw [List.chain'_append]
    refine ⟨hchain, List.chain'_singleton _, ?_⟩
    intro x hx y hy
    simp only [List.head?_cons, Option.mem_def, Option.some.injEq] at hy
    subst hy
    have hx' : s.sick_count.getLastD 0 = x := by
      rw [List.getLastD_eq_getLast?, hx]
      rfl
    rw [hsickNow, hsick2, ← hx']
    exact hlast
  · simp only
    rw [List.getLastD_concat]
    rw [hsickNow]
    refine Nat.le_trans ?_ (advance_fold_countP_le _ students₁ _ have_been_sick
      (fun a r ha => simulate_disease_sick_mono _ a r ha))
    exact Nat.le_refl _
  · simp only
    refine forall2_concat hf2 ?_
    rw [hsickNow, hinfNow]
    exact hinf_le

theorem foldl_days_DayInv (N gk K : Nat) (p q : ℚ) (days : List Days) (s : SimState)
    (h : DayInv N s) :
    DayInv N (days.foldl (fun s d => simulate_day gk K p q d s) s) := by
  induction days generalizing s with
  | nil => exact h
  | cons d rest ih => exact ih _ (simulate_day_DayInv N gk K p q d s h)

/-! ### Unfolding `run_simulation` -/

theorem run_simulation_seed_err (N M B K gk : Nat) (p q : ℚ) (r : Rng) (h : N < 10) :
    run_simulation N M B K p q gk r = .error .seedIndexError := by
  have hs : seed_students (initial_students N) = .error .seedIndexError :=
    seed_students_err _ (by simpa [initial_students_length] using h)
  rw [run_simulation, hs]

theorem run_simulation_alloc_cases (N M B K gk : Nat) (p q : ℚ) (r : Rng) (hN : 10 ≤ N) :
    run_simulation N M B K p q gk r =
      (match allocate (emptyApartments M B) (shuffle (List.range N) r).1
          (shuffle (List.range N) r).2 with
       | .error e => .error e
       | .ok al =>
          let sF := allSimDays.foldl (fun s d => simulate_day gk K p q d s)
            ⟨popOf (seed_students (initial_students N)), (shuffle (List.range N) r).1,
              al.1, [], [], 0, al.2⟩
          .ok { total_sick := sF.sick_count.getLastD 0,
                infected_count := sF.infected_count,
                infected_count_daily_change := diff sF.infected_count,
                sick_count := sF.sick_count,
                sick_count_daily_change := diff sF.sick_count }) := by
  have h10 : 10 ≤ (initial_students N).length := by simpa [initial_students_length] using hN
  rw [run_simulation, seed_students_ok _ h10]
  set sh := shuffle (List.range N) r with hsh
  clear_value sh
  obtain ⟨students₁, r₁⟩ := sh
  cases halloc : allocate (emptyApartments M B) students₁ r₁ with
  | error e => simp [halloc, popOf]
  | ok al =>
      obtain ⟨apts, r₂⟩ := al
      simp [halloc, popOf]

theorem run_simulation_alloc_ok (N M B K gk : Nat) (p q : ℚ) (r : Rng) (hN : 10 ≤ N)
    (al : List Apartment × Rng)
    (halloc : allocate (emptyApartments M B) (shuffle (List.range N) r).1
        (shuffle (List.range N) r).2 = .ok al) :
    run_simulation N M B K p q gk r =
      .ok { total_sick := (allSimDays.foldl (fun s d => simulate_day gk K p q d s)
              ⟨popOf (seed_students (initial_students N)), (shuffle (List.range N) r).1,
                al.1, [], [], 0, al.2⟩).sick_count.getLastD 0,
            infected_count := (allSimDays.foldl (fun s d => simulate_day gk K p q d s)
              ⟨popOf (seed_students (initial_students N)), (shuffle (List.range N) r).1,
                al.1, [], [], 0, al.2⟩).infected_count,
            infected_count_daily_change := diff ((allSimDays.foldl
              (fun s d => simulate_day gk K p q d s)
              ⟨popOf (seed_students (initial_students N)), (shuffle (List.range N) r).1,
                al.1, [], [], 0, al.2⟩).infected_count),
            sick_count := (allSimDays.foldl (fun s d => simulate_day gk K p q d s)
              ⟨popOf (seed_students (initial_students N)), (shuffle (List.range N) r).1,
                al.1, [], [], 0, al.2⟩).sick_count,
            sick_count_daily_change := diff ((allSimDays.foldl
              (fun s d => simulate_day gk K p q d s)
              ⟨popOf (seed_students (initial_students N)), (shuffle (List.range N) r).1,
                al.1, [], [], 0, al.2⟩).sick_count) } := by
  rw [run_simulation_alloc_cases N M B K gk p q r hN, halloc]

/-! ### The claims -/

/-- C2 (counterexample): the claim "run_simulation fails with a
CapacityError exactly when M * B < N" is false as stated: with N = 5,
M = 1, B = 1 we have M*B < N, yet the run fails with the seeding index
error (the hard-coded `for i in range(10): students[i].infect()` loop
hits `students[5]`) before the housing allocation is ever reached, so no
capacity failure occurs. -/
theorem capacity_error_claim_counterexample :
    (1 * 1 < 5) ∧ run_simulation 5 1 1 1 1 0 100 rngC = .error .seedIndexError ∧
    run_simulation 5 1 1 1 1 0 100 rngC ≠ .error .capacityError := by
  refine ⟨by decide, rfl, by decide⟩

/-- C2 (amended): for N ≥ 10 (so that the seeding loop completes),
`run_simulation` fails with the capacity error arising from
`random.choice` on an empty `apartments_with_space` list exactly when
M * B < N; the failure happens inside the housing allocation, before the
day loop, so no day is simulated and no metrics entry is produced.  When
M * B ≥ N the allocation succeeds and no capacity failure occurs. -/
theorem capacity_failure_iff (N M B K gk : Nat) (p q : ℚ) (r : Rng) (hN : 10 ≤ N) :
    run_simulation N M B K p q gk r = .error .capacityError ↔ M * B < N := by
  have hlen₁ : ((shuffle (List.range N) r).1).length = N := by
    rw [shuffle_length, List.length_range]
  rw [run_simulation_alloc_cases N M B K gk p q r hN]
  constructor
  · intro hrun
    by_contra hge
    have hbound : ((shuffle (List.range N) r).1).length + sumOcc (emptyApartments M B) ≤
        (emptyApartments M B).length * B := by
      rw [hlen₁, sumOcc_emptyApartments, emptyApartments_length]
      omega
    obtain ⟨apts', r', hok, _, _, _⟩ :=
      allocate_ok B ((shuffle (List.range N) r).1) (emptyApartments M B)
        ((shuffle (List.range N) r).2) (emptyApartments_inv M B) hbound
    rw [hok] at hrun
    simp at hrun
  · intro hlt
    have hbound : (emptyApartments M B).length * B <
        ((shuffle (List.range N) r).1).length + sumOcc (emptyApartments M B) := by
      rw [hlen₁, sumOcc_emptyApartments, emptyApartments_length]
      omega
    rw [allocate_err B ((shuffle (List.range N) r).1) (emptyApartments M B)
      ((shuffle (List.range N) r).2) (emptyApartments_inv M B) hbound]

theorem capacity_failure_iff_witness :
    (10 ≤ 10) ∧ (run_simulation 10 1 1 1 1 0 100 rngC = .error .capacityError) :=
  ⟨by decide, (capacity_failure_iff 10 1 1 1 100 1 0 rngC (by decide)).mpr (by decide)⟩

/-- C4 (counterexample): the spec scenario N=4, M=1, B=4, K=1, p=1, q=0
does not succeed: the code has no `weeks` or `initial_infected`
parameters, unconditionally seeds 10 agents, and therefore hits an
out-of-range index during seeding when N = 4; no series is produced, so
`sick_series[1] == 4` fails. -/
theorem concrete_scenario_counterexample :
    run_simulation 4 1 4 1 1 0 100 rngC = .error .seedIndexError ∧
    sickSeriesOf (run_simulation 4 1 4 1 1 0 100 rngC) = [] := by
  exact ⟨rfl, rfl⟩

/-- C4 (amended): calling `run_simulation` with N=4, M=1, B=4, K=1,
p=1.0, q=0.0 fails with the seeding index error for every state of the
random source and every value of the module-level constant `K`, because
the seeding loop `for i in range(10)` accesses `students[4]`. -/
theorem concrete_scenario_seed_index_error (gk : Nat) (r : Rng) :
    run_simulation 4 1 4 1 1 0 gk r = .error .seedIndexError :=
  run_simulation_seed_err 4 1 4 1 gk 1 0 r (by omega)

/-- C5: `run_simulation` always marks exactly the first 10 created
agents (population indices 0..9) as pending-infection, regardless of all
its arguments, and for every N < 10 the call fails with the out-of-range
seeding index error — an error distinct from the allocation's capacity
failure, so it occurs before any apartment allocation or simulated
day. -/
theorem seeding_always_first_ten (N M B K gk : Nat) (p q : ℚ) (r : Rng) :
    (N < 10 → run_simulation N M B K p q gk r = .error .seedIndexError) ∧
    (10 ≤ N → ∀ i, i < N →
      ((popOf (seed_students (initial_students N))).getD i default)._infected =
        decide (i < 10)) := by
  constructor
  · exact fun h => run_simulation_seed_err N M B K gk p q r h
  · intro hN i hiN
    by_cases hi : i < 10
    · rw [seededPop_getD_lt N i hN hi]
      simp [infect, hi]
    · rw [seededPop_getD_ge N i hN (by omega) hiN]
      simp [hi]
      rfl

theorem seeding_always_first_ten_witness :
    (7 < 10) ∧
    run_simulation 7 3 4 2 (1/2) (1/3) 100 rngC = .error .seedIndexError ∧
    ((popOf (seed_students (initial_students 12))).getD 3 default)._infected = true ∧
    ((popOf (seed_students (initial_students 12))).getD 11 default)._infected = false := by
  refine ⟨by decide, (seeding_always_first_ten 7 3 4 2 100 (1/2) (1/3) rngC).1 (by decide),
    ?_, ?_⟩
  · have := (seeding_always_first_ten 12 1 12 1 100 0 0 rngC).2 (by decide) 3 (by decide)
    simpa using this
  · have := (seeding_always_first_ten 12 1 12 1 100 0 0 rngC).2 (by decide) 11 (by decide)
    simpa using this

/-- C7: under the precondition `M * B ≥ N` (the number of students to
place), the housing allocation succeeds; each placed student appears in
the apartments' occupant lists exactly as often as in the input (so,
for the run's duplicate-free student list, exactly once), and no
apartment ever holds more than B occupants. -/
theorem housing_allocation_invariant (M B : Nat) (l : List Nat) (r : Rng)
    (h : l.length ≤ M * B) :
    ∃ apts' r', allocate (emptyApartments M B) l r = .ok (apts', r') ∧
      (occList apts').Perm l ∧
      (∀ apt ∈ apts', apt.occupants.length ≤ B) ∧
      (l.Nodup → ∀ x ∈ l, (occList apts').count x = 1) := by
  have hbound : l.length + sumOcc (emptyApartments M B) ≤ (emptyApartments M B).length * B := by
    rw [sumOcc_emptyApartments, emptyApartments_length]
    omega
  obtain ⟨apts', r', hok, hperm, hcap, hlen⟩ :=
    allocate_ok B l (emptyApartments M B) r (emptyApartments_inv M B) hbound
  rw [occList_emptyApartments] at hperm
  simp only [List.nil_append] at hperm
  refine ⟨apts', r', hok, hperm, fun apt ha => (hcap apt ha).2, ?_⟩
  intro hnd x hx
  rw [hperm.count_eq]
  exact List.count_eq_one_of_mem hnd hx

theorem housing_allocation_invariant_witness :
    (([5, 6, 7] : List Nat).length ≤ 2 * 2) ∧
    (∃ apts' r', allocate (emptyApartments 2 2) [5, 6, 7] rngC = .ok (apts', r') ∧
      (occList apts').Perm [5, 6, 7] ∧
      (∀ apt ∈ apts', apt.occupants.length ≤ 2) ∧
      (([5, 6, 7] : List Nat).Nodup → ∀ x ∈ [5, 6, 7], (occList apts').count x = 1)) :=
  ⟨by decide, housing_allocation_invariant 2 2 [5, 6, 7] rngC (by decide)⟩

/-- C9: `run_simulation` is deterministic given the random source: with
equal parameters and equal states of the pseudo-random source, two runs
return identical results — the same `total_sick`, and element-wise
identical infectious and cumulative-sick series and difference series. -/
theorem deterministic_replay (N M B K gk : Nat) (p q : ℚ) (r₁ r₂ : Rng) (h : r₁ = r₂) :
    run_simulation N M B K p q gk r₁ = run_simulation N M B K p q gk r₂ ∧
    (run_simulation N M B K p q gk r₁).map (fun o => o.total_sick) =
      (run_simulation N M B K p q gk r₂).map (fun o => o.total_sick) ∧
    infectedSeriesOf (run_simulation N M B K p q gk r₁) =
      infectedSeriesOf (run_simulation N M B K p q gk r₂) ∧
    sickSeriesOf (run_simulation N M B K p q gk r₁) =
      sickSeriesOf (run_simulation N M B K p q gk r₂) ∧
    (run_simulation N M B K p q gk r₁).map (fun o => o.infected_count_daily_change) =
      (run_simulation N M B K p q gk r₂).map (fun o => o.infected_count_daily_change) ∧
    (run_simulation N M B K p q gk r₁).map (fun o => o.sick_count_daily_change) =
      (run_simulation N M B K p q gk r₂).map (fun o => o.sick_count_daily_change) := by
  subst h
  exact ⟨rfl, rfl, rfl, rfl, rfl, rfl⟩

theorem deterministic_replay_witness :
    run_simulation 1000 500 3 100 (1/25) (1/50) 100 rngC =
      run_simulation 1000 500 3 100 (1/25) (1/50) 100 rngC :=
  (deterministic_replay 1000 500 3 100 100 (1/25) (1/50) rngC rngC rfl).1

/-- C10: in every successful run the cumulative-ever-sick series is
non-decreasing, and day by day the currently-infectious count is at most
the cumulative-sick count (`Forall₂` also forces the two series to have
equal length); a failed run has empty series and satisfies both
trivially. -/
theorem metrics_series_monotone_and_bounded (N M B K gk : Nat) (p q : ℚ) (r : Rng) :
    List.Chain' (· ≤ ·) (sickSeriesOf (run_simulation N M B K p q gk r)) ∧
    List.Forall₂ (· ≤ ·) (infectedSeriesOf (run_simulation N M B K p q gk r))
      (sickSeriesOf (run_simulation N M B K p q gk r)) := by
  by_cases hN : 10 ≤ N
  · cases halloc : allocate (emptyApartments M B) (shuffle (List.range N) r).1
        (shuffle (List.range N) r).2 with
    | error e =>
        rw [run_simulation_alloc_cases N M B K gk p q r hN, halloc]
        exact ⟨List.chain'_nil, List.Forall₂.nil⟩
    | ok al =>
        rw [run_simulation_alloc_ok N M B K gk p q r hN al halloc]
        simp only [sickSeriesOf, infectedSeriesOf]
        generalize allSimDays = ds
        have hinv₀ : DayInv N ⟨popOf (seed_students (initial_students N)),
            (shuffle (List.range N) r).1, al.1, [], [], 0, al.2⟩ :=
          ⟨seededPop_length N hN, shuffle_perm (List.range N) r, List.chain'_nil,
            Nat.zero_le _, List.Forall₂.nil⟩
        have hinv := foldl_days_DayInv N gk K p q ds _ hinv₀
        exact ⟨hinv.2.2.1, hinv.2.2.2.2⟩
  · rw [run_simulation_seed_err N M B K gk p q r (by omega)]
    exact ⟨List.chain'_nil, List.Forall₂.nil⟩

/-! ### Per-operation helpers for the agent automaton -/

theorem applyOp_rank (ar : StudentAgent × Rng) (op : AgentOp) :
    stateRank ar.1.state ≤ stateRank ((applyOp ar op).1.state) ∧
    stateRank ((applyOp ar op).1.state) ≤ stateRank ar.1.state + 1 := by
  cases op with
  | mark_exposed =>
      constructor
      · exact Nat.le_refl _
      · exact Nat.le_succ _
  | advance d => exact simulate_disease_rank d ar.1 ar.2

theorem applyOps_rank (ops : List AgentOp) (ar : StudentAgent × Rng) :
    stateRank ar.1.state ≤ stateRank ((applyOps ar ops).1.state) := by
  induction ops generalizing ar with
  | nil => exact Nat.le_refl _
  | cons op rest ih =>
      exact Nat.le_trans (applyOp_rank ar op).1 (ih (applyOp ar op))

theorem applyOp_immune (ar : StudentAgent × Rng) (op : AgentOp)
    (h : ar.1.state = State.IMMUNE) : (applyOp ar op).1.state = State.IMMUNE := by
  cases op with
  | mark_exposed => simpa [applyOp, infect] using h
  | advance d =>
      have := simulate_disease_immune d ar.1 ar.2 h
      simp [applyOp, this, h]

theorem applyOps_immune (ops : List AgentOp) (ar : StudentAgent × Rng)
    (h : ar.1.state = State.IMMUNE) : (applyOps ar ops).1.state = State.IMMUNE := by
  induction ops generalizing ar with
  | nil => exact h
  | cons op rest ih => exact ih (applyOp ar op) (applyOp_immune ar op h)

/-- C6: along any sequence of `mark_exposed`/`advance` operations the
disease state only moves forward along Susceptible → Infectious → Immune
(each single operation moves the rank by at most one step and never
backward, so no transition is skipped and none is reversed); once
Immune, the state stays Immune under every further operation sequence,
`have_been_sick` stays true forever, and a single `advance` is a
complete no-op. -/
theorem disease_state_monotone (a : StudentAgent) (r : Rng) :
    (∀ op, stateRank a.state ≤ stateRank ((applyOp (a, r) op).1.state) ∧
      stateRank ((applyOp (a, r) op).1.state) ≤ stateRank a.state + 1) ∧
    (∀ ops, stateRank a.state ≤ stateRank ((applyOps (a, r) ops).1.state)) ∧
    (a.state = State.IMMUNE →
      (∀ ops, (applyOps (a, r) ops).1.state = State.IMMUNE ∧
        have_been_sick ((applyOps (a, r) ops).1) = true) ∧
      (∀ d, simulate_disease d a r = (a, r))) := by
  refine ⟨fun op => applyOp_rank (a, r) op, fun ops => applyOps_rank ops (a, r), fun h => ⟨?_, ?_⟩⟩
  · intro ops
    have him := applyOps_immune ops (a, r) h
    refine ⟨him, sick_of_not_healthy _ ?_⟩
    rw [him]
    intro hcon
    exact State.noConfusion hcon
  · exact fun d => simulate_disease_immune d a r h

theorem disease_state_monotone_witness :
    ((⟨State.IMMUNE, false, some 4⟩ : StudentAgent).state = State.IMMUNE) ∧
    ((applyOps (⟨State.IMMUNE, false, some 4⟩, rngC)
        [AgentOp.mark_exposed, AgentOp.advance 4, AgentOp.advance 9]).1.state = State.IMMUNE ∧
      have_been_sick ((applyOps (⟨State.IMMUNE, false, some 4⟩, rngC)
        [AgentOp.mark_exposed, AgentOp.advance 4, AgentOp.advance 9]).1) = true) :=
  ⟨by decide,
    ((disease_state_monotone ⟨State.IMMUNE, false, some 4⟩ rngC).2.2 (by decide)).1
      [AgentOp.mark_exposed, AgentOp.advance 4, AgentOp.advance 9]⟩

/-- C8: within a single `randomly_infect` call only agents that are
infectious at call entry act as sources: the call never changes any
agent's disease state, and the call is extensionally equal to the
variant that evaluates infectiousness against the entry snapshot of the
population, so an agent marked pending-infection during the call cannot
cause any exposure in that same call. -/
theorem contagion_no_same_call_chaining (pop : List StudentAgent) (group : List Nat)
    (prob : ℚ) (r : Rng) :
    (randomly_infect pop group prob r).1.map StudentAgent.state = pop.map StudentAgent.state ∧
    randomly_infect pop group prob r = randomly_infect_entry pop group prob r :=
  ⟨randomly_infect_mapState pop group prob r, randomly_infect_eq_entry pop group prob r⟩

/-- C1 (code bug): `assign_to_classrooms` slices with the module-level
constant `K` (100 in the notebook) instead of its own
`number_of_classrooms` parameter.  Called on 4 students with parameter
2 it returns 2 singleton groups — positions 0 and 1 of the shuffled
list, step 100 — omitting 2 of the 4 students, so the groups are not a
partition of the population.  With the constant equal to the parameter
(as in `run_simulation`, which passes the same `K` to both) the same
call is a partition into near-equal groups. -/
theorem assign_to_classrooms_constant_capture :
    ((assign_to_classrooms 100 [0, 1, 2, 3] 2 rngC).1 = [[0], [1]]) ∧
    ((assign_to_classrooms 100 [0, 1, 2, 3] 2 rngC).1.flatten.length = 2) ∧
    (([0, 1, 2, 3] : List Nat).length = 4) ∧
    ((assign_to_classrooms 2 [0, 1, 2, 3] 2 rngC).1 = [[0, 2], [1, 3]]) ∧
    ((assign_to_classrooms 2 [0, 1, 2, 3] 2 rngC).1.flatten.Perm [0, 1, 2, 3]) := by
  refine ⟨by decide, by decide, by decide, by decide, ?_⟩
  have h : (assign_to_classrooms 2 [0, 1, 2, 3] 2 rngC).1.flatten = [0, 2, 1, 3] := by decide
  rw [h]
  exact List.Perm.cons 0 (List.Perm.swap 1 2 [3])

/-- C3 (counterexample): during day 1's contagion rounds the 10 seeded
agents are not Infectious: the population entering the first simulated
day is exactly the seeded one, in which all 10 seeds carry only the
pending `_infected` flag while `infectious()` is false for every agent,
so seeds cannot spread on day 1. -/
theorem seeds_not_infectious_day_one_counterexample :
    (popOf (seed_students (initial_students 10))).countP (fun a => a._infected) = 10 ∧
    (popOf (seed_students (initial_students 10))).all (fun a => !(infectious a)) = true := by
  decide

/-- C3 (amended): seeded agents are only pending-infection during day
1's contagion rounds — `infectious()` is false for every agent of the
seeded population the first `simulate_day` receives — and they become
Infectious at the start of day 2, i.e. after the first day's
end-of-day advance each seeded agent's state is `INFECTIOUS`, whatever
the day, the apartments, the reference-list order and the random
source. -/
theorem seeds_pending_day_one (N K gk d₀ : Nat) (p q : ℚ) (r : Rng)
    (students : List Nat) (apts : List Apartment) (day : Days)
    (hN : 10 ≤ N) (hs : students.Perm (List.range N)) :
    (∀ i, i < N →
      infectious ((popOf (seed_students (initial_students N))).getD i default) = false) ∧
    (∀ i, i < 10 →
      ((simulate_day gk K p q day
        ⟨popOf (seed_students (initial_students N)), students, apts, [], [], d₀,
          r⟩).pop.getD i default).state = State.INFECTIOUS) := by
  constructor
  · intro i hi
    unfold infectious
    rw [seededPop_state N i hN hi]
    rfl
  · intro i hi
    obtain ⟨pop₁, r₁, students₁, hrel₁, hperm₁, heq⟩ :=
      simulate_day_spec gk K p q day
        ⟨popOf (seed_students (initial_students N)), students, apts, [], [], d₀, r⟩
    rw [heq]
    simp only at hrel₁ hperm₁ ⊢
    have hrel2 : PopRel (popOf (seed_students (initial_students N)))
        (apartments_infect p apts (pop₁, r₁)).1 :=
      hrel₁.comp (apartments_infect_popRel p apts (pop₁, r₁))
    have hlen2 : (apartments_infect p apts (pop₁, r₁)).1.length = N := by
      rw [hrel2.length_eq, seededPop_length N hN]
    have hstate : ((apartments_infect p apts (pop₁, r₁)).1.getD i default).state =
        State.HEALTHY := by
      rw [state_getD_of_map_eq hrel2.1 i]
      exact seededPop_state N i hN (by omega)
    have hflag : ((apartments_infect p apts (pop₁, r₁)).1.getD i default)._infected = true := by
      refine hrel2.2 i ?_
      rw [seededPop_getD_lt N i hN hi]
      exact infect_flag _
    have hmem : i ∈ students₁ := by
      rw [(hperm₁.trans hs).mem_iff]
      exact List.mem_range.mpr (by omega)
    have hnd : students₁.Nodup := ((hperm₁.trans hs).nodup_iff).mpr (List.nodup_range N)
    obtain ⟨r', hr'⟩ := advance_fold_getD_mem (d₀ + 1) students₁
      (apartments_infect p apts (pop₁, r₁)) i default hmem hnd (by rw [hlen2]; omega)
    rw [hr']
    exact simulate_disease_pending (d₀ + 1) _ r' hstate hflag

theorem seeds_pending_day_one_witness :
    (10 ≤ 10) ∧
    infectious ((popOf (seed_students (initial_students 10))).getD 0 default) = false ∧
    ((simulate_day 1 1 0 0 Days.MONDAY
      ⟨popOf (seed_students (initial_students 10)), List.range 10, emptyApartments 10 1,
        [], [], 0, rngC⟩).pop.getD 3 default).state = State.INFECTIOUS := by
  refine ⟨by decide, ?_, ?_⟩
  · exact (seeds_pending_day_one 10 1 1 0 0 0 rngC (List.range 10) (emptyApartments 10 1)
      Days.MONDAY (by decide) (List.Perm.refl _)).1 0 (by decide)
  · exact (seeds_pending_day_one 10 1 1 0 0 0 rngC (List.range 10) (emptyApartments 10 1)
      Days.MONDAY (by decide) (List.Perm.refl _)).2 3 (by decide)

end Cummw
